import Mathlib

/-!
Shallow embedding of the message/room consistency core of a multi-room chat
backend, translated from the TypeScript source (Mongoose models for Room,
Message and User, plus the RoomService, MessageService and UserService
classes).  Documents are plain structures, the durable store is a structure
of lists, and the cache is an association list with a failure flag so that
the try/catch behaviour of the services around asynchronous store and cache
calls is observable.  Timestamps (createdAt, updatedAt, deletedAt) and
reference population are not modelled: no verified claim depends on them.
-/

set_option linter.unusedVariables false

deriving instance DecidableEq for Except

abbrev UserId := Nat
abbrev RoomId := Nat
abbrev MessageId := Nat

/-- Room types, from ROOM_TYPES in the source constants. -/
inductive RoomType where
  | direct
  | group
  | channel
  deriving DecidableEq, Repr

/-- Message types, from MESSAGE_TYPES in the source constants. -/
inductive MessageType where
  | text
  | image
  | file
  | audio
  | video
  | system
  deriving DecidableEq, Repr

/-- Whitespace trim of a string (the schema trim setter and the
String.prototype.trim calls), written with structural recursion so that it
evaluates on concrete inputs. -/
def strTrim (s : String) : String :=
  ⟨(((s.data.dropWhile Char.isWhitespace).reverse.dropWhile Char.isWhitespace).reverse)⟩

/-- Room document, from the roomSchema fields. -/
structure Room where
  id : RoomId
  name : Option String := none
  type : RoomType
  description : String := ""
  participants : List UserId
  admins : List UserId := []
  createdBy : UserId
  lastMessage : Option MessageId := none
  isActive : Bool := true
  deriving DecidableEq, Repr

/-- Message document, from the messageSchema fields. -/
structure Message where
  id : MessageId
  room : RoomId
  sender : UserId
  content : String
  type : MessageType := .text
  fileUrl : Option String := none
  fileName : Option String := none
  fileSize : Option Nat := none
  readBy : List UserId := []
  isEdited : Bool := false
  isDeleted : Bool := false
  replyTo : Option MessageId := none
  deriving DecidableEq, Repr

/-- Typed service errors, from utils/errors.ts.  The constructor generic
stands for a plain JavaScript Error (not an AppError subclass), and
storeFailure stands for an exception thrown by the store or cache client. -/
inductive SvcError where
  | notFound (msg : String)
  | authorization (msg : String)
  | badRequest (msg : String)
  | conflict (msg : String)
  | generic (msg : String)
  | storeFailure
  deriving DecidableEq, Repr

/-- Redis cache state: the UNREAD_COUNT keys, the USER_ROOMS membership
sets, and a flag that makes every cache call throw (an unavailable cache). -/
structure Redis where
  unread : List ((UserId × RoomId) × Nat) := []
  userRooms : List (UserId × RoomId) := []
  failing : Bool := false
  deriving DecidableEq, Repr

namespace Redis

/-- redisClient.get on an UNREAD_COUNT key. -/
def getUnread (r : Redis) (u : UserId) (rid : RoomId) : Except SvcError (Option Nat) :=
  if r.failing then .error .storeFailure
  else .ok ((r.unread.find? (fun e => decide (e.1 = (u, rid)))).map (·.2))

/-- redisClient.set on an UNREAD_COUNT key (TTL not modelled). -/
def setUnread (r : Redis) (u : UserId) (rid : RoomId) (n : Nat) : Except SvcError Redis :=
  if r.failing then .error .storeFailure
  else .ok { r with unread := ((u, rid), n) :: r.unread.filter (fun e => decide (e.1 ≠ (u, rid))) }

/-- redisClient.del on an UNREAD_COUNT key. -/
def delUnread (r : Redis) (u : UserId) (rid : RoomId) : Except SvcError Redis :=
  if r.failing then .error .storeFailure
  else .ok { r with unread := r.unread.filter (fun e => decide (e.1 ≠ (u, rid))) }

/-- redisClient.sAdd on a USER_ROOMS key. -/
def sAddRoom (r : Redis) (u : UserId) (rid : RoomId) : Except SvcError Redis :=
  if r.failing then .error .storeFailure
  else if decide ((u, rid) ∈ r.userRooms) then .ok r
  else .ok { r with userRooms := (u, rid) :: r.userRooms }

/-- redisClient.sRem on a USER_ROOMS key. -/
def sRemRoom (r : Redis) (u : UserId) (rid : RoomId) : Except SvcError Redis :=
  if r.failing then .error .storeFailure
  else .ok { r with userRooms := r.userRooms.filter (fun e => decide (e ≠ (u, rid))) }

end Redis

/-- Durable store: the User, Room and Message collections, fresh-id counters
for document creation, and a flag that makes every store call throw. -/
structure DB where
  users : List UserId := []
  rooms : List Room := []
  messages : List Message := []
  nextRoomId : Nat := 0
  nextMessageId : Nat := 0
  failing : Bool := false
  deriving DecidableEq, Repr

/-- Replace the first element of the list whose key matches the key of a:
the semantics of saving one loaded document back into its collection. -/
def replaceFirstBy {α : Type} (key : α → Nat) (a : α) : List α → List α
  | [] => []
  | x :: xs => if key x = key a then a :: xs else x :: replaceFirstBy key a xs

namespace DB

/-- Wrap a store read: throws when the store is failing. -/
def read {α : Type} (db : DB) (a : α) : Except SvcError α :=
  if db.failing then .error .storeFailure else .ok a

/-- Room.findById. -/
def findRoom (db : DB) (rid : RoomId) : Except SvcError (Option Room) :=
  db.read (db.rooms.find? (fun r => decide (r.id = rid)))

/-- Message.findById. -/
def findMessage (db : DB) (mid : MessageId) : Except SvcError (Option Message) :=
  db.read (db.messages.find? (fun m => decide (m.id = mid)))

/-- Persist a new Room document. -/
def addRoom (db : DB) (r : Room) : DB :=
  { db with rooms := db.rooms ++ [r], nextRoomId := db.nextRoomId + 1 }

/-- Persist a new Message document. -/
def addMessage (db : DB) (m : Message) : DB :=
  { db with messages := db.messages ++ [m], nextMessageId := db.nextMessageId + 1 }

/-- Save a loaded Room document back (document.save on an existing doc). -/
def saveRoom (db : DB) (r : Room) : DB :=
  { db with rooms := replaceFirstBy Room.id r db.rooms }

/-- Save a loaded Message document back (document.save on an existing doc). -/
def saveMessage (db : DB) (m : Message) : DB :=
  { db with messages := replaceFirstBy Message.id m db.messages }

end DB

namespace Room

/-- roomSchema.methods.isParticipant. -/
def isParticipant (r : Room) (u : UserId) : Bool :=
  decide (u ∈ r.participants)

/-- roomSchema.methods.isAdmin. -/
def isAdmin (r : Room) (u : UserId) : Bool :=
  decide (u ∈ r.admins)

/-- roomSchema.methods.addParticipant (document mutation; the save is done
by the calling service in this embedding). -/
def addParticipant (r : Room) (u : UserId) : Room :=
  if decide (u ∈ r.participants) then r
  else { r with participants := r.participants ++ [u] }

/-- roomSchema.methods.removeParticipant: drops the user from participants
and also from admins. -/
def removeParticipant (r : Room) (u : UserId) : Room :=
  { r with participants := r.participants.filter (fun x => decide (x ≠ u)),
           admins := r.admins.filter (fun x => decide (x ≠ u)) }

/-- roomSchema.methods.makeAdmin: pushes the target only when the target is
a participant and not already an admin; otherwise does nothing. -/
def makeAdmin (r : Room) (u : UserId) : Room :=
  if r.isParticipant u && !(r.isAdmin u) then { r with admins := r.admins ++ [u] }
  else r

/-- roomSchema.methods.removeAdmin: throws a plain Error when the target is
the creator, otherwise filters the target out of admins. -/
def removeAdmin (r : Room) (u : UserId) : Except SvcError Room :=
  if u = r.createdBy then .error (.generic "Cannot remove creator as admin")
  else .ok { r with admins := r.admins.filter (fun x => decide (x ≠ u)) }

/-- roomSchema pre-validate hooks: direct rooms need exactly 2 participants
and group/channel rooms need a (truthy) name. -/
def validateDoc (r : Room) : Except SvcError Unit :=
  if r.type = .direct ∧ r.participants.length ≠ 2 then
    .error (.generic "Direct message rooms must have exactly 2 participants")
  else if (r.type = .group ∨ r.type = .channel) ∧ (r.name = none ∨ r.name = some "") then
    .error (.generic "Group and channel rooms must have a name")
  else .ok ()

/-- roomSchema pre-save hook on a new document: push the creator into
participants and admins when absent. -/
def ensureCreatorMembership (r : Room) : Room :=
  let r1 := if decide (r.createdBy ∈ r.participants) then r
            else { r with participants := r.participants ++ [r.createdBy] }
  if decide (r1.createdBy ∈ r1.admins) then r1
  else { r1 with admins := r1.admins ++ [r1.createdBy] }

/-- Room.create: apply the schema trim setter on name, run validation, then
the pre-save hook for new documents. -/
def create (r : Room) : Except SvcError Room :=
  let r := { r with name := r.name.map strTrim }
  match r.validateDoc with
  | .error e => .error e
  | .ok _ => .ok r.ensureCreatorMembership

end Room

namespace Message

/-- messageSchema.methods.isReadBy. -/
def isReadBy (m : Message) (u : UserId) : Bool :=
  decide (u ∈ m.readBy)

/-- messageSchema.methods.markAsRead (document mutation; it saves only when
it actually pushes, which the calling service mirrors). -/
def markAsRead (m : Message) (u : UserId) : Message :=
  if decide (u ∈ m.readBy) then m
  else { m with readBy := m.readBy ++ [u] }

/-- messageSchema pre-validate hook plus the built-in content validators:
file-like types need a fileUrl; content is required and capped at 5000. -/
def validateDoc (m : Message) : Except SvcError Unit :=
  if (m.type = .image ∨ m.type = .file ∨ m.type = .audio ∨ m.type = .video) ∧ m.fileUrl = none then
    .error (.generic "File URL is required for file messages")
  else if m.content = "" then
    .error (.generic "Message content is required")
  else if m.content.length > 5000 then
    .error (.generic "Message cannot exceed 5000 characters")
  else .ok ()

/-- Message.create: apply the schema trim setter on content, then validate. -/
def create (m : Message) : Except SvcError Message :=
  let m := { m with content := strTrim m.content }
  match m.validateDoc with
  | .error e => .error e
  | .ok _ => .ok m

/-- messageSchema.methods.toJSON: the read view of a message.  A soft
deleted message is reported with a placeholder content and without its
file fields; the stored document is left untouched. -/
def toJSON (m : Message) : Message :=
  if m.isDeleted then
    { m with content := "This message has been deleted",
             fileUrl := none, fileName := none, fileSize := none }
  else m

end Message

/-- The recurring unread-message store query: messages of the room, not
sent by the user, not containing the user in readBy, and not deleted. -/
def unreadFilter (rid : RoomId) (userId : UserId) (m : Message) : Bool :=
  decide (m.room = rid) && decide (m.sender ≠ userId) && !(decide (userId ∈ m.readBy)) && !m.isDeleted

/-- Message.countDocuments with the unread-message query. -/
def DB.countUnread (db : DB) (rid : RoomId) (userId : UserId) : Nat :=
  db.messages.countP (unreadFilter rid userId)

/-- CreateRoomDTO from types/api.ts. -/
structure CreateRoomDTO where
  name : Option String := none
  type : RoomType
  description : Option String := none
  participantIds : List UserId
  deriving DecidableEq, Repr

/-- SendMessageDTO from types/api.ts. -/
structure SendMessageDTO where
  roomId : RoomId
  content : String
  type : Option MessageType := none
  replyTo : Option MessageId := none
  deriving DecidableEq, Repr

/-- The direct-room dedup lookup used by RoomService.createRoom: a direct
room whose participants contain both users (note: no isActive filter). -/
def directRoomQuery (u v : UserId) (r : Room) : Bool :=
  decide (r.type = .direct) && decide (u ∈ r.participants) && decide (v ∈ r.participants)

/-- Sequential redisClient.sAdd calls for a list of users. -/
def sAddRoomAll (redis : Redis) (us : List UserId) (rid : RoomId) : Except SvcError Redis :=
  match us with
  | [] => .ok redis
  | u :: rest =>
    match redis.sAddRoom u rid with
    | .error e => .error e
    | .ok r1 => sAddRoomAll r1 rest rid

/-- Sequential redisClient.sRem calls for a list of users. -/
def sRemRoomAll (redis : Redis) (us : List UserId) (rid : RoomId) : Except SvcError Redis :=
  match us with
  | [] => .ok redis
  | u :: rest =>
    match redis.sRemRoom u rid with
    | .error e => .error e
    | .ok r1 => sRemRoomAll r1 rest rid

namespace RoomService

/-- RoomService.createRoom: validates the participant ids, then either the
direct branch (exactly one other id, dedup lookup, create on miss) or the
group/channel branch (name required, creator appended, creator admin). -/
def createRoom (db : DB) (redis : Redis) (userId : UserId) (data : CreateRoomDTO) :
    Except SvcError (Room × DB × Redis) :=
  match db.read (db.users.filter (fun u => decide (u ∈ data.participantIds))) with
  | .error e => .error e
  | .ok users =>
    if users.length ≠ data.participantIds.length then
      .error (.badRequest "One or more participants not found")
    else if data.type = .direct then
      if data.participantIds.length ≠ 1 then
        .error (.badRequest "Direct rooms must have exactly one other participant")
      else
        let other := data.participantIds.headI
        match db.read (db.rooms.find? (directRoomQuery userId other)) with
        | .error e => .error e
        | .ok (some existingRoom) => .ok (existingRoom, db, redis)
        | .ok none =>
          match Room.create { id := db.nextRoomId, type := .direct,
                              participants := [userId, other], createdBy := userId } with
          | .error e => .error e
          | .ok room =>
            let db2 := db.addRoom room
            match redis.sAddRoom userId room.id with
            | .error e => .error e
            | .ok r1 =>
              match r1.sAddRoom other room.id with
              | .error e => .error e
              | .ok r2 => .ok (room, db2, r2)
    else
      if data.name = none ∨ (strTrim (data.name.getD "")).length = 0 then
        .error (.badRequest "Group and channel rooms must have a name")
      else
        match Room.create { id := db.nextRoomId, name := data.name, type := data.type,
                            description := data.description.getD "",
                            participants := data.participantIds ++ [userId],
                            admins := [userId], createdBy := userId } with
        | .error e => .error e
        | .ok room =>
          let db2 := db.addRoom room
          match sAddRoomAll redis (data.participantIds ++ [userId]) room.id with
          | .error e => .error e
          | .ok r2 => .ok (room, db2, r2)

/-- RoomService.deleteRoom: creator or admin only; marks the room inactive
and removes it from every participant membership index. -/
def deleteRoom (db : DB) (redis : Redis) (rid : RoomId) (userId : UserId) :
    Except SvcError (DB × Redis) :=
  match db.findRoom rid with
  | .error e => .error e
  | .ok none => .error (.notFound "Room not found")
  | .ok (some room) =>
    if room.createdBy ≠ userId ∧ !room.isAdmin userId then
      .error (.authorization "Only room creator or admins can delete the room")
    else
      let room2 := { room with isActive := false }
      let db2 := db.saveRoom room2
      match sRemRoomAll redis room.participants rid with
      | .error e => .error e
      | .ok r2 => .ok (db2, r2)

/-- The loop body of RoomService.addParticipants: document addParticipant
(which saves only when it pushes) followed by the membership-index sAdd. -/
def addParticipantsLoop (db : DB) (redis : Redis) (room : Room) (ids : List UserId) :
    Except SvcError (Room × DB × Redis) :=
  match ids with
  | [] => .ok (room, db, redis)
  | pid :: rest =>
    let room2 := room.addParticipant pid
    let db2 := if decide (pid ∈ room.participants) then db else db.saveRoom room2
    match redis.sAddRoom pid room.id with
    | .error e => .error e
    | .ok r2 => addParticipantsLoop db2 r2 room2 rest

/-- RoomService.addParticipants: admin only, rejected for direct rooms,
all ids must resolve to users, then the add loop. -/
def addParticipants (db : DB) (redis : Redis) (rid : RoomId) (userId : UserId)
    (participantIds : List UserId) : Except SvcError (Room × DB × Redis) :=
  match db.findRoom rid with
  | .error e => .error e
  | .ok none => .error (.notFound "Room not found")
  | .ok (some room) =>
    if !room.isAdmin userId then
      .error (.authorization "Only room admins can add participants")
    else if room.type = .direct then
      .error (.badRequest "Cannot add participants to direct message rooms")
    else
      match db.read (db.users.filter (fun u => decide (u ∈ participantIds))) with
      | .error e => .error e
      | .ok users =>
        if users.length ≠ participantIds.length then
          .error (.badRequest "One or more participants not found")
        else addParticipantsLoop db redis room participantIds

/-- RoomService.removeParticipant: self-leave or admin, rejected for direct
rooms and for the creator; removes the target from participants and admins
and from the membership index. -/
def removeParticipant (db : DB) (redis : Redis) (rid : RoomId) (userId targetId : UserId) :
    Except SvcError (Room × DB × Redis) :=
  match db.findRoom rid with
  | .error e => .error e
  | .ok none => .error (.notFound "Room not found")
  | .ok (some room) =>
    if userId ≠ targetId ∧ !room.isAdmin userId then
      .error (.authorization "Only room admins can remove participants")
    else if room.type = .direct then
      .error (.badRequest "Cannot remove participants from direct message rooms")
    else if room.createdBy = targetId then
      .error (.badRequest "Cannot remove room creator")
    else
      let room2 := room.removeParticipant targetId
      let db2 := db.saveRoom room2
      match redis.sRemRoom targetId rid with
      | .error e => .error e
      | .ok r2 => .ok (room2, db2, r2)

/-- RoomService.makeAdmin: admin only, rejected for direct rooms, then the
document makeAdmin, which pushes and saves only for a participant that is
not already an admin. -/
def makeAdmin (db : DB) (rid : RoomId) (userId targetUserId : UserId) :
    Except SvcError (Room × DB) :=
  match db.findRoom rid with
  | .error e => .error e
  | .ok none => .error (.notFound "Room not found")
  | .ok (some room) =>
    if !room.isAdmin userId then
      .error (.authorization "Only room admins can promote users")
    else if room.type = .direct then
      .error (.badRequest "Direct message rooms do not have admins")
    else if room.isParticipant targetUserId && !(room.isAdmin targetUserId) then
      let room2 := { room with admins := room.admins ++ [targetUserId] }
      .ok (room2, db.saveRoom room2)
    else .ok (room, db)

/-- RoomService.removeAdmin: admin only, then the document removeAdmin,
which throws a plain Error for the creator and saves otherwise. -/
def removeAdmin (db : DB) (rid : RoomId) (userId targetUserId : UserId) :
    Except SvcError (Room × DB) :=
  match db.findRoom rid with
  | .error e => .error e
  | .ok none => .error (.notFound "Room not found")
  | .ok (some room) =>
    if !room.isAdmin userId then
      .error (.authorization "Only room admins can demote users")
    else
      match room.removeAdmin targetUserId with
      | .error e => .error e
      | .ok room2 => .ok (room2, db.saveRoom room2)

end RoomService

namespace MessageService

/-- MessageService.sendMessage: room must exist and the sender must be a
participant; the message is created with readBy = [sender]; the room
lastMessage pointer is updated; the sender cached unread count is cleared.
There is no isActive check on the room. -/
def sendMessage (db : DB) (redis : Redis) (userId : UserId) (data : SendMessageDTO) :
    Except SvcError (Message × DB × Redis) :=
  match db.findRoom data.roomId with
  | .error e => .error e
  | .ok none => .error (.notFound "Room not found")
  | .ok (some room) =>
    if !room.isParticipant userId then
      .error (.authorization "You are not a member of this room")
    else
      match Message.create { id := db.nextMessageId, room := data.roomId, sender := userId,
                             content := data.content, type := data.type.getD .text,
                             replyTo := data.replyTo, readBy := [userId] } with
      | .error e => .error e
      | .ok message =>
        let db2 := db.addMessage message
        let db3 := db2.saveRoom { room with lastMessage := some message.id }
        match redis.delUnread userId data.roomId with
        | .error e => .error e
        | .ok r2 => .ok (message, db3, r2)

/-- MessageService.markMessageAsRead: message must exist and the caller
must be a participant of its room; then the document markAsRead, which
pushes and saves only when the caller is not yet in readBy. -/
def markMessageAsRead (db : DB) (mid : MessageId) (userId : UserId) :
    Except SvcError DB :=
  match db.findMessage mid with
  | .error e => .error e
  | .ok none => .error (.notFound "Message not found")
  | .ok (some message) =>
    match db.findRoom message.room with
    | .error e => .error e
    | .ok none => .error (.authorization "You are not a member of this room")
    | .ok (some room) =>
      if !room.isParticipant userId then
        .error (.authorization "You are not a member of this room")
      else if decide (userId ∈ message.readBy) then .ok db
      else .ok (db.saveMessage { message with readBy := message.readBy ++ [userId] })

/-- MessageService.markRoomAsRead: caller must be a participant; updateMany
adds the caller to readBy of every message matching the unread query, and
the caller cached unread count for the room is deleted. -/
def markRoomAsRead (db : DB) (redis : Redis) (rid : RoomId) (userId : UserId) :
    Except SvcError (DB × Redis) :=
  match db.findRoom rid with
  | .error e => .error e
  | .ok none => .error (.notFound "Room not found")
  | .ok (some room) =>
    if !room.isParticipant userId then
      .error (.authorization "You are not a member of this room")
    else
      let db2 := { db with messages := db.messages.map (fun m =>
        if unreadFilter rid userId m then { m with readBy := m.readBy ++ [userId] } else m) }
      match redis.delUnread userId rid with
      | .error e => .error e
      | .ok r2 => .ok (db2, r2)

/-- MessageService.getUnreadCount: read-through cache; any internal failure
is caught and 0 is returned instead of an error. -/
def getUnreadCount (db : DB) (redis : Redis) (rid : RoomId) (userId : UserId) :
    Except SvcError (Nat × Redis) :=
  match redis.getUnread userId rid with
  | .error _ => .ok (0, redis)
  | .ok (some cached) => .ok (cached, redis)
  | .ok none =>
    match db.read (db.countUnread rid userId) with
    | .error _ => .ok (0, redis)
    | .ok count =>
      match redis.setUnread userId rid count with
      | .error _ => .ok (0, redis)
      | .ok r2 => .ok (count, r2)

/-- MessageService.getTotalUnreadCount: counts unread messages over all
active rooms of the user; any internal failure is caught and 0 is
returned instead of an error. -/
def getTotalUnreadCount (db : DB) (userId : UserId) : Except SvcError Nat :=
  match db.read (db.rooms.filter (fun r => decide (userId ∈ r.participants) && r.isActive)) with
  | .error _ => .ok 0
  | .ok rooms =>
    let roomIds := rooms.map Room.id
    match db.read (db.messages.countP (fun m =>
      decide (m.room ∈ roomIds) && decide (m.sender ≠ userId)
        && !(decide (userId ∈ m.readBy)) && !m.isDeleted)) with
    | .error _ => .ok 0
    | .ok count => .ok count

end MessageService

namespace UserService

/-- UserService.deleteAccount with the userSchema pre-remove cascade: the
user is pulled from participants and admins of every room containing the
user, all messages sent by the user are marked deleted, and the user
document is removed.  The session and presence cache cleanup keys are
outside this model. -/
def deleteAccount (db : DB) (redis : Redis) (userId : UserId) :
    Except SvcError (DB × Redis) :=
  match db.read (db.users.find? (fun u => decide (u = userId))) with
  | .error e => .error e
  | .ok none => .error (.notFound "User not found")
  | .ok (some _) =>
    let rooms2 := db.rooms.map (fun r =>
      if decide (userId ∈ r.participants) then
        { r with participants := r.participants.filter (fun x => decide (x ≠ userId)),
                 admins := r.admins.filter (fun x => decide (x ≠ userId)) }
      else r)
    let messages2 := db.messages.map (fun m =>
      if decide (m.sender = userId) then { m with isDeleted := true } else m)
    let db2 := { db with users := db.users.filter (fun u => decide (u ≠ userId)),
                         rooms := rooms2, messages := messages2 }
    .ok (db2, redis)

end UserService

/-- Boolean success projection for service results. -/
def isOkB {ε α : Type} : Except ε α → Bool
  | .ok _ => true
  | .error _ => false

/-- Modelled from the claim wording of the error taxonomy: whether an error
is one of the typed Authorization or BadRequest errors. -/
def SvcError.typedAuthOrBadRequest : SvcError → Bool
  | .authorization _ => true
  | .badRequest _ => true
  | _ => false

/-- Elements of a replaceFirstBy list come from the old list or are the
replacement. -/
theorem mem_replaceFirstBy {α : Type} (key : α → Nat) (a y : α) (l : List α)
    (h : y ∈ replaceFirstBy key a l) : y ∈ l ∨ y = a := by
  induction l with
  | nil => simp [replaceFirstBy] at h
  | cons x xs ih =>
    by_cases hx : key x = key a
    · simp only [replaceFirstBy, if_pos hx, List.mem_cons] at h
      rcases h with h | h
      · exact Or.inr h
      · exact Or.inl (List.mem_cons_of_mem _ h)
    · simp only [replaceFirstBy, if_neg hx, List.mem_cons] at h
      rcases h with h | h
      · exact Or.inl (h ▸ List.mem_cons_self x xs)
      · rcases ih h with h2 | h2
        · exact Or.inl (List.mem_cons_of_mem _ h2)
        · exact Or.inr h2

/-- Finding by key after saving a document with that key yields the saved
document, provided some document with the key was present. -/
theorem find?_replaceFirstBy {α : Type} (key : α → Nat) (a b : α) (l : List α) (k : Nat)
    (hk : key a = k) (h : l.find? (fun x => decide (key x = k)) = some b) :
    (replaceFirstBy key a l).find? (fun x => decide (key x = k)) = some a := by
  induction l with
  | nil => simp [List.find?] at h
  | cons x xs ih =>
    by_cases hx : key x = k
    · have hxa : key x = key a := by rw [hx, hk]
      rw [replaceFirstBy, if_pos hxa]
      exact List.find?_cons_of_pos _ (by simp [hk])
    · have hxa : ¬ key x = key a := by rw [hk]; exact hx
      rw [List.find?_cons_of_neg _ (by simp [hx])] at h
      rw [replaceFirstBy, if_neg hxa, List.find?_cons_of_neg _ (by simp [hx])]
      exact ih h

/-- The length of a collection is unchanged by saving a document. -/
theorem length_replaceFirstBy {α : Type} (key : α → Nat) (a : α) (l : List α) :
    (replaceFirstBy key a l).length = l.length := by
  induction l with
  | nil => rfl
  | cons x xs ih =>
    by_cases hx : key x = key a
    · simp [replaceFirstBy, if_pos hx]
    · simp [replaceFirstBy, if_neg hx, ih]

/-- C4: for every message with isDeleted = true, the read view (toJSON)
reports the fixed placeholder as content and suppresses the file fields;
the stored document itself is not modified by reading. -/
theorem deleted_message_read_view (m : Message) (h : m.isDeleted = true) :
    (m.toJSON).content = "This message has been deleted" ∧
    (m.toJSON).fileUrl = none ∧
    (m.toJSON).fileName = none ∧
    (m.toJSON).fileSize = none := by
  simp [Message.toJSON, h]

/-- The concrete deleted message used to witness the C4 theorem. -/
def mC4 : Message :=
  { id := 0, room := 0, sender := 1, content := "secret", type := .file,
    fileUrl := some "http", fileName := some "f.txt", fileSize := some 3,
    isDeleted := true }

/-- Witness for C4 at a concrete deleted file message. -/
theorem deleted_message_read_view_witness :
    mC4.isDeleted = true ∧
    ((mC4.toJSON).content = "This message has been deleted" ∧
     (mC4.toJSON).fileUrl = none ∧
     (mC4.toJSON).fileName = none ∧
     (mC4.toJSON).fileSize = none) :=
  ⟨by decide, deleted_message_read_view mC4 (by decide)⟩

/-- C6: markMessageAsRead is idempotent: once a call for (message, user)
succeeded, running it again returns the very same store state, so readBy
is exactly as it was after the first application. -/
theorem markMessageAsRead_idempotent (db db1 : DB) (mid : MessageId) (u : UserId)
    (h : MessageService.markMessageAsRead db mid u = .ok db1) :
    MessageService.markMessageAsRead db1 mid u = .ok db1 := by
  unfold MessageService.markMessageAsRead DB.findMessage DB.findRoom DB.read at h ⊢
  by_cases hfail : db.failing
  · simp [hfail] at h
  · simp only [hfail, Bool.false_eq_true, if_false] at h
    cases hm : db.messages.find? (fun m => decide (m.id = mid)) with
    | none => rw [hm] at h; simp only [] at h; exact absurd h (by simp)
    | some message =>
      rw [hm] at h
      simp only [] at h
      have hmid : message.id = mid := by
        have := List.find?_some hm
        simpa using this
      cases hr : db.rooms.find? (fun r => decide (r.id = message.room)) with
      | none => rw [hr] at h; simp only [] at h; exact absurd h (by simp)
      | some room =>
        rw [hr] at h
        simp only [] at h
        by_cases hp : room.isParticipant u = true
        · rw [if_neg (by simp [hp])] at h
          by_cases hread : u ∈ message.readBy
          · rw [if_pos (by simpa using hread)] at h
            have hdb1 : db = db1 := by simpa using h
            subst hdb1
            simp only [hfail, Bool.false_eq_true, if_false]
            rw [hm]
            simp only []
            rw [hr]
            simp only []
            rw [if_neg (by simp [hp]), if_pos (by simpa using hread)]
          · rw [if_neg (by simpa using hread)] at h
            have hdb1 : db.saveMessage { message with readBy := message.readBy ++ [u] } = db1 := by
              simpa using h
            subst hdb1
            simp only [DB.saveMessage, hfail, Bool.false_eq_true, if_false]
            rw [find?_replaceFirstBy Message.id _ message _ mid (by simpa using hmid) hm]
            simp only []
            rw [hr]
            simp only []
            rw [if_neg (by simp [hp])]
            rw [if_pos (by simp)]
        · rw [if_pos (by simpa using hp)] at h
          exact absurd h (by simp)

/-- The concrete store used to witness the C6 theorem: one room with two
participants and one message sent by user 1. -/
def dbC6 : DB :=
  { users := [1, 2],
    rooms := [{ id := 0, type := .direct, participants := [1, 2], admins := [1],
                createdBy := 1 }],
    messages := [{ id := 0, room := 0, sender := 1, content := "hi", readBy := [1] }],
    nextRoomId := 1, nextMessageId := 1 }

/-- Witness for C6: at the concrete store, a successful first call exists
and the second call returns the same state. -/
theorem markMessageAsRead_idempotent_witness :
    MessageService.markMessageAsRead dbC6 0 2 =
      .ok (dbC6.saveMessage { id := 0, room := 0, sender := 1, content := "hi", readBy := [1, 2] }) ∧
    MessageService.markMessageAsRead (dbC6.saveMessage { id := 0, room := 0, sender := 1, content := "hi", readBy := [1, 2] }) 0 2 =
      .ok (dbC6.saveMessage { id := 0, room := 0, sender := 1, content := "hi", readBy := [1, 2] }) :=
  ⟨by rfl, markMessageAsRead_idempotent dbC6 _ 0 2 (by rfl)⟩

/-- Whether a service result failed with one of the typed Authorization or
BadRequest errors (the claim wording for the removeAdmin failure mode). -/
def failsTypedAuthOrBadRequest {α : Type} : Except SvcError α → Bool
  | .error e => e.typedAuthOrBadRequest
  | .ok _ => false

/-- C10: promoting a target that is not a participant (or already an admin)
in a found group/channel room by an admin caller succeeds without error and
returns the room with its admins set unchanged, leaving the store as it was. -/
theorem makeAdmin_nonparticipant_noop (db : DB) (rid : RoomId) (caller target : UserId)
    (room : Room)
    (hfind : db.findRoom rid = .ok (some room))
    (hty : room.type = .group ∨ room.type = .channel)
    (hcaller : room.isAdmin caller = true)
    (htarget : room.isParticipant target = false ∨ room.isAdmin target = true) :
    RoomService.makeAdmin db rid caller target = .ok (room, db) := by
  unfold RoomService.makeAdmin
  rw [hfind]
  simp only []
  rw [if_neg (by simp [hcaller])]
  have hdir : ¬ room.type = .direct := by rcases hty with h | h <;> simp [h]
  rw [if_neg hdir]
  rw [if_neg (by rcases htarget with h | h <;> simp [h])]

/-- The concrete group room used to witness the C10 theorem. -/
def roomC10 : Room :=
  { id := 0, name := some "g", type := .group, participants := [1, 2],
    admins := [1], createdBy := 1 }

/-- The concrete store used to witness the C10 theorem. -/
def dbC10 : DB := { users := [1, 2, 3], rooms := [roomC10], nextRoomId := 1 }

/-- Witness for C10: promoting the non-participant user 3 in the concrete
group room is a silent no-op. -/
theorem makeAdmin_nonparticipant_noop_witness :
    dbC10.findRoom 0 = .ok (some roomC10) ∧
    (roomC10.type = .group ∨ roomC10.type = .channel) ∧
    roomC10.isAdmin 1 = true ∧
    (roomC10.isParticipant 3 = false ∨ roomC10.isAdmin 3 = true) ∧
    RoomService.makeAdmin dbC10 0 1 3 = .ok (roomC10, dbC10) :=
  ⟨by rfl, Or.inl (by rfl), by rfl, Or.inl (by rfl),
    makeAdmin_nonparticipant_noop dbC10 0 1 3 roomC10 (by rfl) (Or.inl (by rfl))
      (by rfl) (Or.inl (by rfl))⟩

/-- C7 (amended): removeAdmin aimed at the creator of a found room always
fails and the creator is never removed from admins; the failure is the
typed Authorization error when the caller is not an admin, but an untyped
plain Error (not Authorization/BadRequest) when the caller is an admin. -/
theorem removeAdmin_creator_always_fails (db : DB) (rid : RoomId) (caller : UserId)
    (room : Room)
    (hfind : db.findRoom rid = .ok (some room)) :
    (RoomService.removeAdmin db rid caller room.createdBy =
        .error (.authorization "Only room admins can demote users") ∨
     RoomService.removeAdmin db rid caller room.createdBy =
        .error (.generic "Cannot remove creator as admin")) ∧
    (∀ target room2 db2, RoomService.removeAdmin db rid caller target = .ok (room2, db2) →
      room.createdBy ∈ room.admins → room.createdBy ∈ room2.admins) := by
  constructor
  · unfold RoomService.removeAdmin
    rw [hfind]
    simp only []
    by_cases hadm : room.isAdmin caller = true
    · rw [if_neg (by simp [hadm])]
      right
      unfold Room.removeAdmin
      rw [if_pos rfl]
    · rw [if_pos (by simp [Bool.not_eq_true] at hadm; simp [hadm])]
      left
      rfl
  · intro target room2 db2 h hcre
    unfold RoomService.removeAdmin at h
    rw [hfind] at h
    simp only [] at h
    by_cases hadm : room.isAdmin caller = true
    · rw [if_neg (by simp [hadm])] at h
      unfold Room.removeAdmin at h
      by_cases htc : target = room.createdBy
      · rw [if_pos htc] at h
        simp only [] at h
        exact absurd h (by simp)
      · rw [if_neg htc] at h
        simp only [] at h
        have h2 : room2 = { room with admins := room.admins.filter (fun x => !decide (x = target)) } := by
          have := h
          simp at this
          exact this.1.symm
        subst h2
        refine List.mem_filter.mpr ⟨hcre, ?_⟩
        simp only [Bool.not_eq_true', decide_eq_false_iff_not]
        exact fun hcon => htc hcon.symm
    · rw [if_pos (by simp [Bool.not_eq_true] at hadm; simp [hadm])] at h
      exact absurd h (by simp)

/-- The concrete group room used for the C7 counterexample: user 2 is an
admin but not the creator. -/
def roomC7 : Room :=
  { id := 0, name := some "g", type := .group, participants := [1, 2],
    admins := [1, 2], createdBy := 1 }

/-- The concrete store used for the C7 counterexample. -/
def dbC7 : DB := { users := [1, 2], rooms := [roomC7], nextRoomId := 1 }

/-- Counterexample for C7 as stated: an admin caller demoting the creator
gets a plain untyped Error, not an Authorization or BadRequest error. -/
theorem removeAdmin_creator_not_typed_error :
    roomC7.isAdmin 2 = true ∧
    roomC7.createdBy = 1 ∧
    RoomService.removeAdmin dbC7 0 2 1 = .error (.generic "Cannot remove creator as admin") ∧
    failsTypedAuthOrBadRequest (RoomService.removeAdmin dbC7 0 2 1) = false :=
  ⟨by rfl, by rfl, by rfl, by rfl⟩

/-- Witness for the amended C7 theorem at the concrete store. -/
theorem removeAdmin_creator_always_fails_witness :
    dbC7.findRoom 0 = .ok (some roomC7) ∧
    ((RoomService.removeAdmin dbC7 0 2 roomC7.createdBy =
        .error (.authorization "Only room admins can demote users") ∨
      RoomService.removeAdmin dbC7 0 2 roomC7.createdBy =
        .error (.generic "Cannot remove creator as admin")) ∧
     (∀ target room2 db2, RoomService.removeAdmin dbC7 0 2 target = .ok (room2, db2) →
       roomC7.createdBy ∈ roomC7.admins → roomC7.createdBy ∈ room2.admins)) :=
  ⟨by rfl, removeAdmin_creator_always_fails dbC7 0 2 roomC7 (by rfl)⟩

/-- Creating a Room document always leaves the creator inside participants
and inside admins (the pre-save hook on new documents), and keeps createdBy. -/
theorem ensureCreatorMembership_spec (r : Room) :
    (r.ensureCreatorMembership).createdBy = r.createdBy ∧
    (r.ensureCreatorMembership).createdBy ∈ (r.ensureCreatorMembership).participants ∧
    (r.ensureCreatorMembership).createdBy ∈ (r.ensureCreatorMembership).admins := by
  unfold Room.ensureCreatorMembership
  by_cases h1 : r.createdBy ∈ r.participants <;> by_cases h2 : r.createdBy ∈ r.admins <;>
    simp [h1, h2]

theorem room_create_membership (r r2 : Room) (h : Room.create r = .ok r2) :
    r2.createdBy = r.createdBy ∧ r2.createdBy ∈ r2.participants ∧ r2.createdBy ∈ r2.admins := by
  unfold Room.create at h
  simp only [] at h
  split at h
  · exact absurd h (by simp)
  · have h2 : Room.ensureCreatorMembership { r with name := r.name.map strTrim } = r2 := by
      simpa using h
    have hs := ensureCreatorMembership_spec { r with name := r.name.map strTrim }
    rw [h2] at hs
    simpa using hs

/-- C5: every room actually created by a successful createRoom call (a room
present afterwards that was not present before) has the caller as creator,
as a participant, and as an admin, for all three room types. -/
theorem createRoom_creator_membership (db : DB) (redis : Redis) (u : UserId)
    (data : CreateRoomDTO) (room : Room) (db2 : DB) (r2 : Redis)
    (h : RoomService.createRoom db redis u data = .ok (room, db2, r2)) :
    ∀ r ∈ db2.rooms, r ∉ db.rooms → r.createdBy = u ∧ u ∈ r.participants ∧ u ∈ r.admins := by
  intro r hr hnotin
  unfold RoomService.createRoom DB.read at h
  by_cases hfail : db.failing
  · simp [hfail] at h
  · simp only [hfail, Bool.false_eq_true, if_false] at h
    split at h
    · exact absurd h (by simp)
    · split at h
      · -- direct branch
        split at h
        · exact absurd h (by simp)
        · split at h
          · exact absurd h (by simp)
          · -- dedup hit: store unchanged
            rw [Except.ok.injEq, Prod.mk.injEq, Prod.mk.injEq] at h
            obtain ⟨-, hdb, -⟩ := h
            subst hdb
            exact absurd hr hnotin
          · -- dedup miss: create
            split at h
            · exact absurd h (by simp)
            · rename_i newRoom hcreate
              split at h
              · exact absurd h (by simp)
              · split at h
                · exact absurd h (by simp)
                · rw [Except.ok.injEq, Prod.mk.injEq, Prod.mk.injEq] at h
                  obtain ⟨hroom, hdb, -⟩ := h
                  subst hdb
                  simp only [DB.addRoom, List.mem_append, List.mem_singleton] at hr
                  rcases hr with hin | hnew
                  · exact absurd hin hnotin
                  · subst hnew
                    obtain ⟨hc, hp, ha⟩ := room_create_membership _ _ hcreate
                    have hcu : r.createdBy = u := by simpa using hc
                    rw [hcu] at hp ha
                    exact ⟨hcu, hp, ha⟩
      · -- group/channel branch
        split at h
        · exact absurd h (by simp)
        · split at h
          · exact absurd h (by simp)
          · rename_i newRoom hcreate
            split at h
            · exact absurd h (by simp)
            · rw [Except.ok.injEq, Prod.mk.injEq, Prod.mk.injEq] at h
              obtain ⟨hroom, hdb, -⟩ := h
              subst hdb
              simp only [DB.addRoom, List.mem_append, List.mem_singleton] at hr
              rcases hr with hin | hnew
              · exact absurd hin hnotin
              · subst hnew
                obtain ⟨hc, hp, ha⟩ := room_create_membership _ _ hcreate
                have hcu : r.createdBy = u := by simpa using hc
                rw [hcu] at hp ha
                exact ⟨hcu, hp, ha⟩

/-- The pre-state, created room and post-state used to witness C5. -/
def dbC5 : DB := { users := [1, 2] }

/-- The room the C5 witness creates. -/
def roomC5 : Room :=
  { id := 0, name := some "g", type := .group, participants := [2, 1],
    admins := [1], createdBy := 1 }

/-- The post-state of the C5 witness call. -/
def dbC5post : DB := { users := [1, 2], rooms := [roomC5], nextRoomId := 1 }

/-- The cache post-state of the C5 witness call. -/
def redisC5post : Redis := { userRooms := [(1, 0), (2, 0)] }

/-- Witness for C5: creating a concrete group room where the creator was
not listed among the requested participants. -/
theorem createRoom_creator_membership_witness :
    RoomService.createRoom dbC5 {} 1 { name := some "g", type := .group, participantIds := [2] } =
      .ok (roomC5, dbC5post, redisC5post) ∧
    ∀ r ∈ dbC5post.rooms, r ∉ dbC5.rooms → r.createdBy = 1 ∧ 1 ∈ r.participants ∧ 1 ∈ r.admins :=
  ⟨by decide,
    createRoom_creator_membership dbC5 {} 1
      { name := some "g", type := .group, participantIds := [2] } roomC5 dbC5post redisC5post
      (by decide)⟩

/-- Creating a Message document only trims the content; every other field,
in particular readBy, is stored as given. -/
theorem message_create_fields (m m2 : Message) (h : Message.create m = .ok m2) :
    m2 = { m with content := strTrim m.content } := by
  unfold Message.create at h
  simp only [] at h
  split at h
  · exact absurd h (by simp)
  · simpa using h.symm

/-- C3 (amended): sendMessage raises NotFound when the room is absent and
Authorization when the sender is not a participant, and every successful
call creates the message with readBy exactly the sender singleton; the
room being active is not required (the source has no isActive check). -/
theorem sendMessage_spec (db : DB) (redis : Redis) (u : UserId) (data : SendMessageDTO)
    (hfail : db.failing = false) :
    (db.rooms.find? (fun r => decide (r.id = data.roomId)) = none →
      MessageService.sendMessage db redis u data = .error (.notFound "Room not found")) ∧
    (∀ room, db.rooms.find? (fun r => decide (r.id = data.roomId)) = some room →
      room.isParticipant u = false →
      MessageService.sendMessage db redis u data =
        .error (.authorization "You are not a member of this room")) ∧
    (∀ msg db2 rr, MessageService.sendMessage db redis u data = .ok (msg, db2, rr) →
      msg.readBy = [u]) := by
  refine ⟨?_, ?_, ?_⟩
  · intro hnone
    unfold MessageService.sendMessage DB.findRoom DB.read
    simp only [hfail, Bool.false_eq_true, if_false]
    rw [hnone]
  · intro room hsome hnp
    unfold MessageService.sendMessage DB.findRoom DB.read
    simp only [hfail, Bool.false_eq_true, if_false]
    rw [hsome]
    simp only []
    rw [if_pos (by simp [hnp])]
  · intro msg db2 rr h
    unfold MessageService.sendMessage DB.findRoom DB.read at h
    simp only [hfail, Bool.false_eq_true, if_false] at h
    split at h
    · exact absurd h (by simp)
    · exact absurd h (by simp)
    · split at h
      · exact absurd h (by simp)
      · split at h
        · exact absurd h (by simp)
        · rename_i message hcreate
          split at h
          · exact absurd h (by simp)
          · rw [Except.ok.injEq, Prod.mk.injEq, Prod.mk.injEq] at h
            obtain ⟨hmsg, -, -⟩ := h
            subst hmsg
            have := message_create_fields _ _ hcreate
            rw [this]

/-- The inactive room used for the C3 counterexample. -/
def roomC3 : Room :=
  { id := 0, name := some "g", type := .group, participants := [1],
    admins := [1], createdBy := 1, isActive := false }

/-- The concrete store used for the C3 counterexample. -/
def dbC3 : DB := { users := [1], rooms := [roomC3], nextRoomId := 1 }

/-- Counterexample for C3 as stated: sendMessage succeeds in a room whose
isActive flag is false, so being active is not required. -/
theorem sendMessage_inactive_room_succeeds :
    roomC3.isActive = false ∧
    isOkB (MessageService.sendMessage dbC3 {} 1 { roomId := 0, content := "hi" }) = true :=
  ⟨by decide, by decide⟩

/-- The store without the target room used for the C3 witness. -/
def dbC3absent : DB := { users := [1] }

/-- Witness for the amended C3 theorem: the NotFound case at a concrete
store with no rooms. -/
theorem sendMessage_spec_witness :
    dbC3absent.failing = false ∧
    dbC3absent.rooms.find? (fun r => decide (r.id = 0)) = none ∧
    MessageService.sendMessage dbC3absent {} 1 { roomId := 0, content := "hi" } =
      .error (.notFound "Room not found") :=
  ⟨by decide, by decide,
    (sendMessage_spec dbC3absent {} 1 { roomId := 0, content := "hi" } (by decide)).1 (by decide)⟩

/-- C9 (amended): getUnreadCount and getTotalUnreadCount never raise: they
catch any internal store or cache failure and return 0 instead of
propagating an error to the caller. -/
theorem unread_counts_never_raise (db : DB) (redis : Redis) (rid : RoomId) (u : UserId) :
    isOkB (MessageService.getUnreadCount db redis rid u) = true ∧
    isOkB (MessageService.getTotalUnreadCount db u) = true ∧
    (redis.failing = true → MessageService.getUnreadCount db redis rid u = .ok (0, redis)) ∧
    (db.failing = true → MessageService.getTotalUnreadCount db u = .ok 0) := by
  refine ⟨?_, ?_, ?_, ?_⟩
  · unfold MessageService.getUnreadCount
    split
    · rfl
    · rfl
    · split
      · rfl
      · split
        · rfl
        · rfl
  · unfold MessageService.getTotalUnreadCount
    split
    · rfl
    · dsimp only
      split
      · rfl
      · rfl
  · intro hf
    unfold MessageService.getUnreadCount Redis.getUnread
    rw [if_pos hf]
  · intro hf
    unfold MessageService.getTotalUnreadCount DB.read
    rw [if_pos hf]

/-- The concrete store used for the C9 counterexample and witness: user 2
has exactly one unread message in room 0. -/
def dbC9 : DB :=
  { users := [1, 2],
    rooms := [{ id := 0, type := .direct, participants := [1, 2], admins := [1],
                createdBy := 1 }],
    messages := [{ id := 0, room := 0, sender := 1, content := "hi", readBy := [1] }],
    nextRoomId := 1, nextMessageId := 1 }

/-- Counterexample for C9 as stated: with a failing cache (and a failing
store), both unread-count readers return ok 0 instead of raising, although
the true unread count is 1. -/
theorem unread_counts_swallow_failure :
    dbC9.countUnread 0 2 = 1 ∧
    MessageService.getUnreadCount dbC9 { failing := true } 0 2 = .ok (0, { failing := true }) ∧
    MessageService.getTotalUnreadCount { dbC9 with failing := true } 2 = .ok 0 :=
  ⟨by decide, by decide, by decide⟩

/-- Witness for the amended C9 theorem at a failing cache. -/
theorem unread_counts_never_raise_witness :
    isOkB (MessageService.getUnreadCount dbC9 { failing := true } 0 2) = true ∧
    ({ failing := true } : Redis).failing = true ∧
    MessageService.getUnreadCount dbC9 { failing := true } 0 2 = .ok (0, { failing := true }) :=
  ⟨(unread_counts_never_raise dbC9 { failing := true } 0 2).1, by decide,
    (unread_counts_never_raise dbC9 { failing := true } 0 2).2.2.1 (by decide)⟩

/-- Looking up a cache key right after filtering that key out finds
nothing. -/
theorem find?_key_filter_ne {β : Type} (l : List ((UserId × RoomId) × β)) (k : UserId × RoomId) :
    (l.filter (fun e => decide (e.1 ≠ k))).find? (fun e => decide (e.1 = k)) = none := by
  rw [List.find?_eq_none]
  intro x hx
  have hmem := List.of_mem_filter hx
  simp at hmem ⊢
  exact hmem

/-- After the markRoomAsRead updateMany, no message of the room still
matches the unread query for that user. -/
theorem countP_unread_after_mark (msgs : List Message) (rid : RoomId) (u : UserId) :
    (msgs.map (fun m =>
      if unreadFilter rid u m then { m with readBy := m.readBy ++ [u] } else m)).countP
      (unreadFilter rid u) = 0 := by
  rw [List.countP_eq_zero]
  intro m' hm'
  rw [List.mem_map] at hm'
  obtain ⟨m, hm, rfl⟩ := hm'
  by_cases hf : unreadFilter rid u m = true
  · rw [if_pos hf]
    simp [unreadFilter]
  · rw [if_neg hf]
    exact fun hc => hf hc

/-- C2: on a cache miss, getUnreadCount returns exactly the store count N
of non-deleted messages of the room not authored by the user and without
the user in readBy, and caches N; and right after a successful
markRoomAsRead for that user and room, getUnreadCount returns 0. -/
theorem getUnreadCount_spec (db : DB) (redis : Redis) (rid : RoomId) (u : UserId) (n : Nat)
    (hdb : db.failing = false) (hr : redis.failing = false)
    (hmiss : redis.getUnread u rid = .ok none)
    (hn : db.messages.countP (unreadFilter rid u) = n) :
    (∃ redis2, MessageService.getUnreadCount db redis rid u = .ok (n, redis2) ∧
      redis2.getUnread u rid = .ok (some n)) ∧
    (∀ db2 redis2, MessageService.markRoomAsRead db redis rid u = .ok (db2, redis2) →
      ∃ redis3, MessageService.getUnreadCount db2 redis2 rid u = .ok (0, redis3)) := by
  constructor
  · refine ⟨{ redis with
        unread := ((u, rid), n) :: redis.unread.filter (fun e => decide (e.1 ≠ (u, rid))) },
      ?_, ?_⟩
    · unfold MessageService.getUnreadCount
      rw [hmiss]
      simp only []
      unfold DB.read
      rw [if_neg (by simp [hdb])]
      simp only []
      unfold Redis.setUnread
      rw [if_neg (by simp [hr])]
      simp only [DB.countUnread, hn]
    · unfold Redis.getUnread
      rw [if_neg (by simp [hr])]
      simp [List.find?]
  · intro db2 redis2 hmark
    unfold MessageService.markRoomAsRead DB.findRoom DB.read at hmark
    simp only [hdb, Bool.false_eq_true, if_false] at hmark
    split at hmark
    · exact absurd hmark (by simp)
    · exact absurd hmark (by simp)
    · split at hmark
      · exact absurd hmark (by simp)
      · unfold Redis.delUnread at hmark
        rw [if_neg (by simp [hr])] at hmark
        simp only [] at hmark
        rw [Except.ok.injEq, Prod.mk.injEq] at hmark
        obtain ⟨hdb2, hr2⟩ := hmark
        subst hdb2
        subst hr2
        refine ⟨{ redis with unread := ((u, rid), 0) :: ((redis.unread.filter (fun e => decide (e.1 ≠ (u, rid)))).filter (fun e => decide (e.1 ≠ (u, rid)))) }, ?_⟩
        unfold MessageService.getUnreadCount Redis.getUnread
        rw [if_neg (by simp [hr])]
        rw [find?_key_filter_ne]
        simp only [Option.map_none']
        unfold DB.read
        rw [if_neg (by simp [hdb])]
        simp only [DB.countUnread, countP_unread_after_mark]
        unfold Redis.setUnread
        rw [if_neg (by simp [hr])]

/-- The concrete store used for the C2 witness: user 2 has exactly one
unread message in room 0 and the cache is empty. -/
def dbC2 : DB :=
  { users := [1, 2],
    rooms := [{ id := 0, type := .direct, participants := [1, 2], admins := [1],
                createdBy := 1 }],
    messages := [{ id := 0, room := 0, sender := 1, content := "hi", readBy := [1] }],
    nextRoomId := 1, nextMessageId := 1 }

/-- Witness for C2 at the concrete store with an empty cache. -/
theorem getUnreadCount_spec_witness :
    dbC2.messages.countP (unreadFilter 0 2) = 1 ∧
    ((∃ redis2, MessageService.getUnreadCount dbC2 {} 0 2 = .ok (1, redis2) ∧
        redis2.getUnread 2 0 = .ok (some 1)) ∧
     (∀ db2 redis2, MessageService.markRoomAsRead dbC2 {} 0 2 = .ok (db2, redis2) →
        ∃ redis3, MessageService.getUnreadCount db2 redis2 0 2 = .ok (0, redis3))) :=
  ⟨by decide, getUnreadCount_spec dbC2 {} 0 2 1 (by decide) (by decide) (by decide) (by decide)⟩

/-- C8: deleting a user strips that user from participants and admins of
every room without deleting any room, and marks every message authored by
that user as deleted (content reported as the placeholder henceforth)
without removing any message.  The admins-are-participants hypothesis
reflects that the cascade only updates rooms that list the user as a
participant. -/
theorem deleteAccount_cascade (db : DB) (redis : Redis) (u : UserId) (db2 : DB) (r2 : Redis)
    (h : UserService.deleteAccount db redis u = .ok (db2, r2))
    (hadm : ∀ r ∈ db.rooms, u ∈ r.admins → u ∈ r.participants) :
    (∀ r ∈ db2.rooms, u ∉ r.participants ∧ u ∉ r.admins) ∧
    db2.rooms.length = db.rooms.length ∧
    (∀ m ∈ db2.messages, m.sender = u → m.isDeleted = true ∧
      m.toJSON.content = "This message has been deleted") ∧
    db2.messages.length = db.messages.length := by
  unfold UserService.deleteAccount DB.read at h
  by_cases hfail : db.failing
  · simp [hfail] at h
  · simp only [hfail, Bool.false_eq_true, if_false] at h
    split at h
    · exact absurd h (by simp)
    · exact absurd h (by simp)
    · rw [Except.ok.injEq, Prod.mk.injEq] at h
      obtain ⟨hdb2, -⟩ := h
      subst hdb2
      refine ⟨?_, by simp, ?_, by simp⟩
      · intro r hr
        simp only [List.mem_map] at hr
        obtain ⟨r0, hr0, rfl⟩ := hr
        by_cases hpart : u ∈ r0.participants
        · rw [if_pos (by simpa using hpart)]
          constructor
          · simp
          · simp
        · rw [if_neg (by simpa using hpart)]
          exact ⟨hpart, fun ha => hpart (hadm r0 hr0 ha)⟩
      · intro m hm hsender
        simp only [List.mem_map] at hm
        obtain ⟨m0, hm0, rfl⟩ := hm
        by_cases hs : m0.sender = u
        · rw [if_pos (by simpa using hs)] at hsender ⊢
          exact ⟨rfl, by simp [Message.toJSON]⟩
        · rw [if_neg (by simpa using hs)] at hsender
          exact absurd hsender hs

/-- The concrete store used for the C8 witness: user 2 is a participant
and admin of room 0 and authored message 0. -/
def dbC8 : DB :=
  { users := [1, 2],
    rooms := [{ id := 0, name := some "g", type := .group, participants := [1, 2],
                admins := [1, 2], createdBy := 1 }],
    messages := [{ id := 0, room := 0, sender := 2, content := "hello", readBy := [2] }],
    nextRoomId := 1, nextMessageId := 1 }

/-- The post-state of the C8 witness call. -/
def dbC8post : DB :=
  { users := [1],
    rooms := [{ id := 0, name := some "g", type := .group, participants := [1],
                admins := [1], createdBy := 1 }],
    messages := [{ id := 0, room := 0, sender := 2, content := "hello", readBy := [2],
                   isDeleted := true }],
    nextRoomId := 1, nextMessageId := 1 }

/-- Witness for C8 at the concrete store. -/
theorem deleteAccount_cascade_witness :
    UserService.deleteAccount dbC8 {} 2 = .ok (dbC8post, {}) ∧
    ((∀ r ∈ dbC8post.rooms, 2 ∉ r.participants ∧ 2 ∉ r.admins) ∧
     dbC8post.rooms.length = dbC8.rooms.length ∧
     (∀ m ∈ dbC8post.messages, m.sender = 2 → m.isDeleted = true ∧
       m.toJSON.content = "This message has been deleted") ∧
     dbC8post.messages.length = dbC8.messages.length) :=
  ⟨by decide, deleteAccount_cascade dbC8 {} 2 dbC8post {} (by decide) (by decide)⟩

/-- Two rooms never both contain the same unordered pair of distinct users
when both are direct: the property the partial unique index on direct
rooms is meant to enforce per pair. -/
def noSharedPair (r1 r2 : Room) : Prop :=
  r1.type = .direct → r2.type = .direct →
    ∀ u v : UserId, u ≠ v → u ∈ r1.participants → v ∈ r1.participants →
      ¬(u ∈ r2.participants ∧ v ∈ r2.participants)

/-- The structural dedup invariant on the room collection: no two distinct
occurrences of direct rooms share an unordered pair of distinct
participants. -/
def DirectDedup (rooms : List Room) : Prop :=
  rooms.Pairwise noSharedPair

theorem noSharedPair_symm : Symmetric noSharedPair := by
  intro a b h hb ha u v huv hu hv hcon
  exact h ha hb u v huv hcon.1 hcon.2 ⟨hu, hv⟩

theorem noSharedPair_mono_left (a a' b : Room)
    (hm : a'.type = .direct → a.type = .direct ∧ ∀ x ∈ a'.participants, x ∈ a.participants)
    (h : noSharedPair a b) : noSharedPair a' b := by
  intro ha' hb u v huv hu hv
  obtain ⟨hat, hsub⟩ := hm ha'
  exact h hat hb u v huv (hsub u hu) (hsub v hv)

theorem noSharedPair_mono_right (a b b' : Room)
    (hm : b'.type = .direct → b.type = .direct ∧ ∀ x ∈ b'.participants, x ∈ b.participants)
    (h : noSharedPair a b) : noSharedPair a b' := by
  intro ha hb' u v huv hu hv hcon
  obtain ⟨hbt, hsub⟩ := hm hb'
  exact h ha hbt u v huv hu hv ⟨hsub u hcon.1, hsub v hcon.2⟩

/-- Appending a room that shares no pair with the present rooms preserves
the dedup invariant. -/
theorem directDedup_append (rooms : List Room) (r : Room)
    (h : DirectDedup rooms) (hnew : ∀ r0 ∈ rooms, noSharedPair r0 r) :
    DirectDedup (rooms ++ [r]) := by
  unfold DirectDedup at h ⊢
  rw [List.pairwise_append]
  refine ⟨h, List.pairwise_singleton _ _, ?_⟩
  intro a ha b hb
  rw [List.mem_singleton] at hb
  subst hb
  exact hnew a ha

/-- Saving a non-direct room preserves the dedup invariant, wherever the
save lands. -/
theorem directDedup_replace_nondirect (rooms : List Room) (r' : Room)
    (hty : ¬ r'.type = .direct) (h : DirectDedup rooms) :
    DirectDedup (replaceFirstBy Room.id r' rooms) := by
  unfold DirectDedup at h ⊢
  induction rooms with
  | nil => exact h
  | cons x xs ih =>
    rcases List.pairwise_cons.mp h with ⟨hx_rest, hrest⟩
    by_cases hx : Room.id x = Room.id r'
    · rw [replaceFirstBy, if_pos hx, List.pairwise_cons]
      refine ⟨?_, hrest⟩
      intro y hy hdir
      exact absurd hdir hty
    · rw [replaceFirstBy, if_neg hx, List.pairwise_cons]
      refine ⟨?_, ih hrest⟩
      intro y hy
      rcases mem_replaceFirstBy _ _ _ _ hy with hmem | hyr
      · exact hx_rest y hmem
      · subst hyr
        intro hxd hdir
        exact absurd hdir hty

/-- Saving back the first room found by id, with the same type and no new
participants, preserves the dedup invariant. -/
theorem directDedup_save (rooms : List Room) (k : Nat) (room r' : Room)
    (hfind : rooms.find? (fun x => decide (x.id = k)) = some room)
    (hid : r'.id = k)
    (hmono : r'.type = .direct → room.type = .direct ∧
      ∀ x ∈ r'.participants, x ∈ room.participants)
    (h : DirectDedup rooms) :
    DirectDedup (replaceFirstBy Room.id r' rooms) := by
  unfold DirectDedup at h ⊢
  revert hfind h
  induction rooms with
  | nil => intro hfind h; simp [List.find?] at hfind
  | cons x xs ih =>
    intro hfind h
    rcases List.pairwise_cons.mp h with ⟨hx_rest, hrest⟩
    by_cases hx : x.id = k
    · rw [List.find?_cons_of_pos _ (by simp [hx])] at hfind
      injection hfind with hfind
      subst hfind
      rw [replaceFirstBy, if_pos (by rw [hx, hid])]
      rw [List.pairwise_cons]
      refine ⟨?_, hrest⟩
      intro y hy
      exact noSharedPair_mono_left _ _ _ hmono (hx_rest y hy)
    · rw [List.find?_cons_of_neg _ (by simp [hx])] at hfind
      rw [replaceFirstBy, if_neg (by rw [hid]; exact hx)]
      rw [List.pairwise_cons]
      refine ⟨?_, ih hfind hrest⟩
      intro y hy
      rcases mem_replaceFirstBy _ _ _ _ hy with hmem | hyr
      · exact hx_rest y hmem
      · subst hyr
        exact noSharedPair_mono_right _ _ _ hmono
          (hx_rest room (List.mem_of_find?_eq_some hfind))

/-- The user-deletion cascade on the room collection preserves the dedup
invariant: it only shrinks participant lists. -/
theorem directDedup_strip (rooms : List Room) (u : UserId) (h : DirectDedup rooms) :
    DirectDedup (rooms.map (fun r =>
      if decide (u ∈ r.participants) then
        { r with participants := r.participants.filter (fun x => decide (x ≠ u)),
                 admins := r.admins.filter (fun x => decide (x ≠ u)) }
      else r)) := by
  unfold DirectDedup at h ⊢
  refine List.Pairwise.map _ ?_ h
  intro a b hab
  have hm : ∀ c : Room,
      (if decide (u ∈ c.participants) then
        { c with participants := c.participants.filter (fun x => decide (x ≠ u)),
                 admins := c.admins.filter (fun x => decide (x ≠ u)) }
      else c).type = .direct →
      c.type = .direct ∧
      ∀ x ∈ (if decide (u ∈ c.participants) then
        { c with participants := c.participants.filter (fun x => decide (x ≠ u)),
                 admins := c.admins.filter (fun x => decide (x ≠ u)) }
      else c).participants, x ∈ c.participants := by
    intro c
    by_cases hc : u ∈ c.participants
    · rw [if_pos (by simpa using hc)]
      exact fun hd => ⟨hd, fun x hx => (List.mem_filter.mp hx).1⟩
    · rw [if_neg (by simpa using hc)]
      exact fun hd => ⟨hd, fun x hx => hx⟩
  exact noSharedPair_mono_right _ _ _ (hm b) (noSharedPair_mono_left _ _ _ (hm a) hab)

/-- The document addParticipant never changes the room type. -/
theorem addParticipant_type (r : Room) (u : UserId) : (r.addParticipant u).type = r.type := by
  unfold Room.addParticipant
  split <;> rfl

/-- Creating the direct-room document of createRoom yields exactly the
document with the creator pushed into admins by the pre-save hook. -/
theorem room_create_direct_eq (i : Nat) (u v : UserId) :
    Room.create { id := i, type := .direct, participants := [u, v], createdBy := u } =
      .ok { id := i, type := .direct, participants := [u, v], admins := [u], createdBy := u } := by
  unfold Room.create Room.validateDoc Room.ensureCreatorMembership
  simp

/-- Under the dedup invariant, at most one active direct room matches a
given unordered pair of distinct users. -/
theorem directDedup_at_most_one_active (rooms : List Room) (h : DirectDedup rooms)
    (u v : UserId) (huv : u ≠ v) :
    (rooms.filter (fun r => directRoomQuery u v r && r.isActive)).length ≤ 1 := by
  unfold DirectDedup at h
  have hp := h.filter (fun r => directRoomQuery u v r && r.isActive)
  rcases hfl : rooms.filter (fun r => directRoomQuery u v r && r.isActive) with - | ⟨a, - | ⟨b, t⟩⟩
  · simp
  · simp
  · exfalso
    rw [hfl] at hp
    rcases List.pairwise_cons.mp hp with ⟨hab, -⟩
    have hns := hab b (List.mem_cons_self b t)
    have haq : (directRoomQuery u v a && a.isActive) = true := by
      have hmem : a ∈ rooms.filter (fun r => directRoomQuery u v r && r.isActive) := by
        rw [hfl]; exact List.mem_cons_self a (b :: t)
      exact (List.mem_filter.mp hmem).2
    have hbq : (directRoomQuery u v b && b.isActive) = true := by
      have hmem : b ∈ rooms.filter (fun r => directRoomQuery u v r && r.isActive) := by
        rw [hfl]; exact List.mem_cons_of_mem a (List.mem_cons_self b t)
      exact (List.mem_filter.mp hmem).2
    simp only [directRoomQuery, Bool.and_eq_true, decide_eq_true_eq] at haq hbq
    obtain ⟨⟨⟨had, hau⟩, hav⟩, -⟩ := haq
    obtain ⟨⟨⟨hbd, hbu⟩, hbv⟩, -⟩ := hbq
    exact hns had hbd u v huv hau hav ⟨hbu, hbv⟩

/-- The pre-save hook never changes the room type. -/
theorem ensureCreatorMembership_type (r : Room) : (r.ensureCreatorMembership).type = r.type := by
  unfold Room.ensureCreatorMembership
  by_cases h1 : r.createdBy ∈ r.participants <;> by_cases h2 : r.createdBy ∈ r.admins <;>
    simp [h1, h2]

/-- Creating a Room document never changes the requested type. -/
theorem room_create_type (r r2 : Room) (h : Room.create r = .ok r2) : r2.type = r.type := by
  unfold Room.create at h
  simp only [] at h
  split at h
  · exact absurd h (by simp)
  · have h2 : Room.ensureCreatorMembership { r with name := r.name.map strTrim } = r2 := by
      simpa using h
    rw [← h2]
    exact ensureCreatorMembership_type _

/-- markMessageAsRead never touches the room collection. -/
theorem markMessageAsRead_rooms (db : DB) (mid : MessageId) (u : UserId) (db2 : DB)
    (h : MessageService.markMessageAsRead db mid u = .ok db2) : db2.rooms = db.rooms := by
  unfold MessageService.markMessageAsRead DB.findMessage DB.findRoom DB.read at h
  by_cases hfail : db.failing
  · simp [hfail] at h
  · simp only [hfail, Bool.false_eq_true, if_false] at h
    split at h
    · exact absurd h (by simp)
    · exact absurd h (by simp)
    · split at h
      · exact absurd h (by simp)
      · exact absurd h (by simp)
      · split at h
        · exact absurd h (by simp)
        · split at h
          · rw [Except.ok.injEq] at h
            subst h
            rfl
          · rw [Except.ok.injEq] at h
            subst h
            rfl

/-- markRoomAsRead never touches the room collection. -/
theorem markRoomAsRead_rooms (db : DB) (redis : Redis) (rid : RoomId) (u : UserId)
    (db2 : DB) (redis2 : Redis)
    (h : MessageService.markRoomAsRead db redis rid u = .ok (db2, redis2)) :
    db2.rooms = db.rooms := by
  unfold MessageService.markRoomAsRead DB.findRoom DB.read at h
  by_cases hfail : db.failing
  · simp [hfail] at h
  · simp only [hfail, Bool.false_eq_true, if_false] at h
    split at h
    · exact absurd h (by simp)
    · exact absurd h (by simp)
    · split at h
      · exact absurd h (by simp)
      · split at h
        · exact absurd h (by simp)
        · rw [Except.ok.injEq, Prod.mk.injEq] at h
          obtain ⟨hdb, -⟩ := h
          subst hdb
          rfl

/-- A successful createRoom preserves the dedup invariant: the direct
branch creates only when the pair lookup found nothing, and the
group/channel branch appends a non-direct room. -/
theorem createRoom_preserves_dedup (db : DB) (redis : Redis) (u : UserId)
    (data : CreateRoomDTO) (room : Room) (db2 : DB) (redis2 : Redis)
    (h : RoomService.createRoom db redis u data = .ok (room, db2, redis2))
    (hinv : DirectDedup db.rooms) : DirectDedup db2.rooms := by
  unfold RoomService.createRoom DB.read at h
  by_cases hfail : db.failing
  · simp [hfail] at h
  · simp only [hfail, Bool.false_eq_true, if_false] at h
    split at h
    · exact absurd h (by simp)
    · split at h
      · -- direct branch
        split at h
        · exact absurd h (by simp)
        · split at h
          · exact absurd h (by simp)
          · -- dedup hit: store unchanged
            rw [Except.ok.injEq, Prod.mk.injEq, Prod.mk.injEq] at h
            obtain ⟨-, hdb, -⟩ := h
            subst hdb
            exact hinv
          · -- dedup miss: append the new pair room
            rename_i hfq
            rw [Except.ok.injEq] at hfq
            split at h
            · exact absurd h (by simp)
            · rename_i newRoom hcreate
              rw [room_create_direct_eq] at hcreate
              rw [Except.ok.injEq] at hcreate
              split at h
              · exact absurd h (by simp)
              · split at h
                · exact absurd h (by simp)
                · rw [Except.ok.injEq, Prod.mk.injEq, Prod.mk.injEq] at h
                  obtain ⟨-, hdb, -⟩ := h
                  subst hdb
                  show DirectDedup (db.rooms ++ [newRoom])
                  apply directDedup_append _ _ hinv
                  intro r0 hr0
                  subst hcreate
                  intro hr0d hnd u' v' huv hu' hv' hcon
                  obtain ⟨hcu, hcv⟩ := hcon
                  have hq := List.find?_eq_none.mp hfq r0 hr0
                  simp only [directRoomQuery, Bool.and_eq_true, decide_eq_true_eq,
                    not_and, Bool.not_eq_true] at hq
                  simp only [List.mem_cons, List.not_mem_nil, or_false] at hcu hcv
                  rcases hcu with rfl | rfl <;> rcases hcv with rfl | rfl
                  · exact huv rfl
                  · exact hq ⟨hr0d, hu'⟩ hv'
                  · exact hq ⟨hr0d, hv'⟩ hu'
                  · exact huv rfl
      · -- group/channel branch: a non-direct room is appended
        rename_i hnd
        split at h
        · exact absurd h (by simp)
        · split at h
          · exact absurd h (by simp)
          · rename_i newRoom hcreate
            split at h
            · exact absurd h (by simp)
            · rw [Except.ok.injEq, Prod.mk.injEq, Prod.mk.injEq] at h
              obtain ⟨-, hdb, -⟩ := h
              subst hdb
              show DirectDedup (db.rooms ++ [newRoom])
              apply directDedup_append _ _ hinv
              intro r0 hr0
              intro hr0d hd
              have hty : newRoom.type = data.type := room_create_type _ _ hcreate
              rw [hty] at hd
              exact absurd hd hnd

/-- A successful deleteRoom only flips isActive, preserving the dedup
invariant. -/
theorem deleteRoom_preserves_dedup (db : DB) (redis : Redis) (rid : RoomId) (u : UserId)
    (db2 : DB) (redis2 : Redis)
    (h : RoomService.deleteRoom db redis rid u = .ok (db2, redis2))
    (hinv : DirectDedup db.rooms) : DirectDedup db2.rooms := by
  unfold RoomService.deleteRoom DB.findRoom DB.read at h
  by_cases hfail : db.failing
  · simp [hfail] at h
  · simp only [hfail, Bool.false_eq_true, if_false] at h
    split at h
    · exact absurd h (by simp)
    · exact absurd h (by simp)
    · rename_i room hfind
      rw [Except.ok.injEq] at hfind
      split at h
      · exact absurd h (by simp)
      · split at h
        · exact absurd h (by simp)
        · rw [Except.ok.injEq, Prod.mk.injEq] at h
          obtain ⟨hdb, -⟩ := h
          subst hdb
          show DirectDedup (replaceFirstBy Room.id { room with isActive := false } db.rooms)
          have hid : room.id = rid := by simpa using List.find?_some hfind
          exact directDedup_save db.rooms rid room _ hfind hid
            (fun hd => ⟨hd, fun x hx => hx⟩) hinv

/-- A successful sendMessage only updates the lastMessage pointer of the
room, preserving the dedup invariant. -/
theorem sendMessage_preserves_dedup (db : DB) (redis : Redis) (u : UserId)
    (data : SendMessageDTO) (msg : Message) (db2 : DB) (redis2 : Redis)
    (h : MessageService.sendMessage db redis u data = .ok (msg, db2, redis2))
    (hinv : DirectDedup db.rooms) : DirectDedup db2.rooms := by
  unfold MessageService.sendMessage DB.findRoom DB.read at h
  by_cases hfail : db.failing
  · simp [hfail] at h
  · simp only [hfail, Bool.false_eq_true, if_false] at h
    split at h
    · exact absurd h (by simp)
    · exact absurd h (by simp)
    · rename_i room hfind
      rw [Except.ok.injEq] at hfind
      split at h
      · exact absurd h (by simp)
      · split at h
        · exact absurd h (by simp)
        · rename_i message hcreate
          split at h
          · exact absurd h (by simp)
          · rw [Except.ok.injEq, Prod.mk.injEq, Prod.mk.injEq] at h
            obtain ⟨-, hdb, -⟩ := h
            subst hdb
            show DirectDedup
              (replaceFirstBy Room.id { room with lastMessage := some message.id } db.rooms)
            have hid : room.id = data.roomId := by simpa using List.find?_some hfind
            exact directDedup_save db.rooms data.roomId room _ hfind hid
              (fun hd => ⟨hd, fun x hx => hx⟩) hinv

/-- A successful removeAdmin only shrinks the admins list, preserving the
dedup invariant. -/
theorem removeAdmin_preserves_dedup (db : DB) (rid : RoomId) (u t : UserId)
    (room2 : Room) (db2 : DB)
    (h : RoomService.removeAdmin db rid u t = .ok (room2, db2))
    (hinv : DirectDedup db.rooms) : DirectDedup db2.rooms := by
  unfold RoomService.removeAdmin DB.findRoom DB.read at h
  by_cases hfail : db.failing
  · simp [hfail] at h
  · simp only [hfail, Bool.false_eq_true, if_false] at h
    split at h
    · exact absurd h (by simp)
    · exact absurd h (by simp)
    · rename_i room hfind
      rw [Except.ok.injEq] at hfind
      split at h
      · exact absurd h (by simp)
      · unfold Room.removeAdmin at h
        by_cases htc : t = room.createdBy
        · rw [if_pos htc] at h
          exact absurd h (by simp)
        · rw [if_neg htc] at h
          simp only [] at h
          rw [Except.ok.injEq, Prod.mk.injEq] at h
          obtain ⟨-, hdb⟩ := h
          subst hdb
          show DirectDedup (replaceFirstBy Room.id
            { room with admins := room.admins.filter (fun x => decide (x ≠ t)) } db.rooms)
          have hid : room.id = rid := by simpa using List.find?_some hfind
          exact directDedup_save db.rooms rid room _ hfind hid
            (fun hd => ⟨hd, fun x hx => hx⟩) hinv

/-- A successful makeAdmin only grows the admins list of a non-direct
room, preserving the dedup invariant. -/
theorem makeAdmin_preserves_dedup (db : DB) (rid : RoomId) (u t : UserId)
    (room2 : Room) (db2 : DB)
    (h : RoomService.makeAdmin db rid u t = .ok (room2, db2))
    (hinv : DirectDedup db.rooms) : DirectDedup db2.rooms := by
  unfold RoomService.makeAdmin DB.findRoom DB.read at h
  by_cases hfail : db.failing
  · simp [hfail] at h
  · simp only [hfail, Bool.false_eq_true, if_false] at h
    split at h
    · exact absurd h (by simp)
    · exact absurd h (by simp)
    · rename_i room hfind
      split at h
      · exact absurd h (by simp)
      · split at h
        · exact absurd h (by simp)
        · rename_i hnd
          split at h
          · rw [Except.ok.injEq, Prod.mk.injEq] at h
            obtain ⟨-, hdb⟩ := h
            subst hdb
            show DirectDedup (replaceFirstBy Room.id
              { room with admins := room.admins ++ [t] } db.rooms)
            exact directDedup_replace_nondirect db.rooms _ hnd hinv
          · rw [Except.ok.injEq, Prod.mk.injEq] at h
            obtain ⟨-, hdb⟩ := h
            subst hdb
            exact hinv

/-- A successful removeParticipant only shrinks a non-direct room,
preserving the dedup invariant. -/
theorem removeParticipant_preserves_dedup (db : DB) (redis : Redis) (rid : RoomId)
    (u t : UserId) (room2 : Room) (db2 : DB) (redis2 : Redis)
    (h : RoomService.removeParticipant db redis rid u t = .ok (room2, db2, redis2))
    (hinv : DirectDedup db.rooms) : DirectDedup db2.rooms := by
  unfold RoomService.removeParticipant DB.findRoom DB.read at h
  by_cases hfail : db.failing
  · simp [hfail] at h
  · simp only [hfail, Bool.false_eq_true, if_false] at h
    split at h
    · exact absurd h (by simp)
    · exact absurd h (by simp)
    · rename_i room hfind
      split at h
      · exact absurd h (by simp)
      · split at h
        · exact absurd h (by simp)
        · rename_i hnd
          split at h
          · exact absurd h (by simp)
          · split at h
            · exact absurd h (by simp)
            · rw [Except.ok.injEq, Prod.mk.injEq, Prod.mk.injEq] at h
              obtain ⟨-, hdb, -⟩ := h
              subst hdb
              show DirectDedup (replaceFirstBy Room.id (room.removeParticipant t) db.rooms)
              exact directDedup_replace_nondirect db.rooms _ hnd hinv

/-- The addParticipants loop saves only non-direct rooms, preserving the
dedup invariant. -/
theorem addLoop_preserves_dedup (res : Room × DB × Redis) (ids : List UserId)
    (db : DB) (redis : Redis) (room : Room)
    (hty : ¬ room.type = .direct)
    (h : RoomService.addParticipantsLoop db redis room ids = .ok res)
    (hinv : DirectDedup db.rooms) : DirectDedup res.2.1.rooms := by
  induction ids generalizing db redis room with
  | nil =>
    unfold RoomService.addParticipantsLoop at h
    rw [Except.ok.injEq] at h
    subst h
    exact hinv
  | cons pid rest ih =>
    unfold RoomService.addParticipantsLoop at h
    simp only [] at h
    split at h
    · exact absurd h (by simp)
    · by_cases hmem : pid ∈ room.participants
      · rw [if_pos (by simpa using hmem)] at h
        refine ih _ _ _ ?_ h hinv
        rw [addParticipant_type]
        exact hty
      · rw [if_neg (by simpa using hmem)] at h
        refine ih _ _ _ ?_ h ?_
        · rw [addParticipant_type]
          exact hty
        · show DirectDedup (replaceFirstBy Room.id (room.addParticipant pid) db.rooms)
          apply directDedup_replace_nondirect
          · rw [addParticipant_type]
            exact hty
          · exact hinv

/-- A successful addParticipants preserves the dedup invariant. -/
theorem addParticipants_preserves_dedup (db : DB) (redis : Redis) (rid : RoomId)
    (u : UserId) (ids : List UserId) (room2 : Room) (db2 : DB) (redis2 : Redis)
    (h : RoomService.addParticipants db redis rid u ids = .ok (room2, db2, redis2))
    (hinv : DirectDedup db.rooms) : DirectDedup db2.rooms := by
  unfold RoomService.addParticipants DB.findRoom DB.read at h
  by_cases hfail : db.failing
  · simp [hfail] at h
  · simp only [hfail, Bool.false_eq_true, if_false] at h
    split at h
    · exact absurd h (by simp)
    · exact absurd h (by simp)
    · rename_i room hfind
      split at h
      · exact absurd h (by simp)
      · split at h
        · exact absurd h (by simp)
        · rename_i hnd
          split at h
          · exact absurd h (by simp)
          · exact addLoop_preserves_dedup (room2, db2, redis2) ids db redis room hnd h hinv

/-- A successful deleteAccount preserves the dedup invariant. -/
theorem deleteAccount_preserves_dedup (db : DB) (redis : Redis) (u : UserId)
    (db2 : DB) (redis2 : Redis)
    (h : UserService.deleteAccount db redis u = .ok (db2, redis2))
    (hinv : DirectDedup db.rooms) : DirectDedup db2.rooms := by
  unfold UserService.deleteAccount DB.read at h
  by_cases hfail : db.failing
  · simp [hfail] at h
  · simp only [hfail, Bool.false_eq_true, if_false] at h
    split at h
    · exact absurd h (by simp)
    · exact absurd h (by simp)
    · rw [Except.ok.injEq, Prod.mk.injEq] at h
      obtain ⟨hdb, -⟩ := h
      subst hdb
      exact directDedup_strip db.rooms u hinv

/-- One successful state-changing service call, observed through its ok
result: the step relation over (store, cache) states that a sequence of
committed operations walks. -/
inductive Step : DB × Redis → DB × Redis → Prop where
  | createRoom (db : DB) (redis : Redis) (u : UserId) (data : CreateRoomDTO)
      (room : Room) (db2 : DB) (redis2 : Redis) :
      RoomService.createRoom db redis u data = .ok (room, db2, redis2) →
      Step (db, redis) (db2, redis2)
  | deleteRoom (db : DB) (redis : Redis) (rid : RoomId) (u : UserId)
      (db2 : DB) (redis2 : Redis) :
      RoomService.deleteRoom db redis rid u = .ok (db2, redis2) →
      Step (db, redis) (db2, redis2)
  | addParticipants (db : DB) (redis : Redis) (rid : RoomId) (u : UserId)
      (ids : List UserId) (room : Room) (db2 : DB) (redis2 : Redis) :
      RoomService.addParticipants db redis rid u ids = .ok (room, db2, redis2) →
      Step (db, redis) (db2, redis2)
  | removeParticipant (db : DB) (redis : Redis) (rid : RoomId) (u t : UserId)
      (room : Room) (db2 : DB) (redis2 : Redis) :
      RoomService.removeParticipant db redis rid u t = .ok (room, db2, redis2) →
      Step (db, redis) (db2, redis2)
  | makeAdmin (db : DB) (redis : Redis) (rid : RoomId) (u t : UserId)
      (room : Room) (db2 : DB) :
      RoomService.makeAdmin db rid u t = .ok (room, db2) →
      Step (db, redis) (db2, redis)
  | removeAdmin (db : DB) (redis : Redis) (rid : RoomId) (u t : UserId)
      (room : Room) (db2 : DB) :
      RoomService.removeAdmin db rid u t = .ok (room, db2) →
      Step (db, redis) (db2, redis)
  | sendMessage (db : DB) (redis : Redis) (u : UserId) (data : SendMessageDTO)
      (msg : Message) (db2 : DB) (redis2 : Redis) :
      MessageService.sendMessage db redis u data = .ok (msg, db2, redis2) →
      Step (db, redis) (db2, redis2)
  | markMessageAsRead (db : DB) (redis : Redis) (mid : MessageId) (u : UserId) (db2 : DB) :
      MessageService.markMessageAsRead db mid u = .ok db2 →
      Step (db, redis) (db2, redis)
  | markRoomAsRead (db : DB) (redis : Redis) (rid : RoomId) (u : UserId)
      (db2 : DB) (redis2 : Redis) :
      MessageService.markRoomAsRead db redis rid u = .ok (db2, redis2) →
      Step (db, redis) (db2, redis2)
  | getUnreadCount (db : DB) (redis : Redis) (rid : RoomId) (u : UserId)
      (n : Nat) (redis2 : Redis) :
      MessageService.getUnreadCount db redis rid u = .ok (n, redis2) →
      Step (db, redis) (db, redis2)
  | deleteAccount (db : DB) (redis : Redis) (u : UserId) (db2 : DB) (redis2 : Redis) :
      UserService.deleteAccount db redis u = .ok (db2, redis2) →
      Step (db, redis) (db2, redis2)

/-- Every committed service call preserves the dedup invariant. -/
theorem step_preserves_directDedup (s s2 : DB × Redis)
    (hinv : DirectDedup s.1.rooms) (hstep : Step s s2) : DirectDedup s2.1.rooms := by
  cases hstep with
  | createRoom db redis u data room db2 redis2 h =>
    exact createRoom_preserves_dedup db redis u data room db2 redis2 h hinv
  | deleteRoom db redis rid u db2 redis2 h =>
    exact deleteRoom_preserves_dedup db redis rid u db2 redis2 h hinv
  | addParticipants db redis rid u ids room db2 redis2 h =>
    exact addParticipants_preserves_dedup db redis rid u ids room db2 redis2 h hinv
  | removeParticipant db redis rid u t room db2 redis2 h =>
    exact removeParticipant_preserves_dedup db redis rid u t room db2 redis2 h hinv
  | makeAdmin db redis rid u t room db2 h =>
    exact makeAdmin_preserves_dedup db rid u t room db2 h hinv
  | removeAdmin db redis rid u t room db2 h =>
    exact removeAdmin_preserves_dedup db rid u t room db2 h hinv
  | sendMessage db redis u data msg db2 redis2 h =>
    exact sendMessage_preserves_dedup db redis u data msg db2 redis2 h hinv
  | markMessageAsRead db redis mid u db2 h =>
    rw [markMessageAsRead_rooms db mid u db2 h]
    exact hinv
  | markRoomAsRead db redis rid u db2 redis2 h =>
    rw [markRoomAsRead_rooms db redis rid u db2 redis2 h]
    exact hinv
  | getUnreadCount db redis rid u n redis2 h => exact hinv
  | deleteAccount db redis u db2 redis2 h =>
    exact deleteAccount_preserves_dedup db redis u db2 redis2 h hinv

/-- Under the dedup invariant, a createRoom(direct) call for a pair that
already has a direct room returns exactly that room and leaves both the
store and the cache untouched. -/
theorem createRoom_direct_hit (db : DB) (redis : Redis) (u v : UserId) (room : Room)
    (hinv : DirectDedup db.rooms) (hfail : db.failing = false)
    (husers : (db.users.filter (fun x => decide (x = v))).length = 1)
    (hmem : room ∈ db.rooms) (hdir : room.type = .direct)
    (hu : u ∈ room.participants) (hv : v ∈ room.participants) (huv : u ≠ v) :
    RoomService.createRoom db redis u { type := .direct, participantIds := [v] } =
      .ok (room, db, redis) := by
  unfold DirectDedup at hinv
  unfold RoomService.createRoom DB.read
  simp only [hfail, Bool.false_eq_true, if_false]
  rw [if_neg (by simp [husers])]
  rw [if_pos trivial]
  rw [if_neg (by simp)]
  simp only [List.headI]
  cases hfq : db.rooms.find? (directRoomQuery u v) with
  | none =>
    exfalso
    have hq := List.find?_eq_none.mp hfq room hmem
    simp [directRoomQuery, hdir, hu, hv] at hq
  | some r0 =>
    have hr0mem := List.mem_of_find?_eq_some hfq
    have hr0p := List.find?_some hfq
    simp only [directRoomQuery, Bool.and_eq_true, decide_eq_true_eq] at hr0p
    obtain ⟨⟨hr0d, hr0u⟩, hr0v⟩ := hr0p
    have heq : r0 = room := by
      by_contra hne
      have hns := List.Pairwise.forall noSharedPair_symm hinv hr0mem hmem hne
      exact hns hr0d hdir u v huv hr0u hr0v ⟨hu, hv⟩
    simp only []
    rw [heq]

/-- C1: under the structural dedup invariant, createRoom(direct) for an
unordered pair {u, v} that already has an active direct room returns
exactly that room and leaves the store and cache untouched (idempotent
create); every committed service call preserves the invariant; and the
invariant bounds the active direct rooms per unordered pair of distinct
participants by one. -/
theorem createRoom_direct_dedup :
    (∀ (db : DB) (redis : Redis) (u v : UserId) (room : Room),
      DirectDedup db.rooms → db.failing = false →
      (db.users.filter (fun x => decide (x = v))).length = 1 →
      room ∈ db.rooms → room.type = .direct → room.isActive = true →
      u ∈ room.participants → v ∈ room.participants → u ≠ v →
      RoomService.createRoom db redis u { type := .direct, participantIds := [v] } =
        .ok (room, db, redis)) ∧
    (∀ s s2 : DB × Redis, DirectDedup s.1.rooms → Step s s2 → DirectDedup s2.1.rooms) ∧
    (∀ rooms : List Room, DirectDedup rooms → ∀ u v : UserId, u ≠ v →
      (rooms.filter (fun r => directRoomQuery u v r && r.isActive)).length ≤ 1) := by
  refine ⟨?_, step_preserves_directDedup, directDedup_at_most_one_active⟩
  intro db redis u v room hinv hfail husers hmem hdir hact hu hv huv
  exact createRoom_direct_hit db redis u v room hinv hfail husers hmem hdir hu hv huv

/-- The existing active direct room used for the C1 witness. -/
def roomC1 : Room :=
  { id := 0, type := .direct, participants := [1, 2], admins := [1], createdBy := 1 }

/-- The concrete store used for the C1 witness. -/
def dbC1 : DB := { users := [1, 2], rooms := [roomC1], nextRoomId := 1 }

/-- Witness for C1: creating the direct room for the pair {1, 2} again
returns the existing room unchanged, and the pair has at most one active
direct room. -/
theorem createRoom_direct_dedup_witness :
    DirectDedup dbC1.rooms ∧
    RoomService.createRoom dbC1 {} 1 { type := .direct, participantIds := [2] } =
      .ok (roomC1, dbC1, {}) ∧
    (dbC1.rooms.filter (fun r => directRoomQuery 1 2 r && r.isActive)).length ≤ 1 := by
  have hinv : DirectDedup dbC1.rooms := by
    unfold DirectDedup
    exact List.pairwise_singleton _ _
  refine ⟨hinv, ?_, ?_⟩
  · exact createRoom_direct_dedup.1 dbC1 {} 1 2 roomC1 hinv (by decide) (by decide)
      (by decide) (by decide) (by decide) (by decide) (by decide) (by decide)
  · exact createRoom_direct_dedup.2.2 dbC1.rooms hinv 1 2 (by decide)
